import Mathlib

/-!
Verification of the document-registry system: a shallow embedding of the
Solidity contract `sc/src/DocumentRegistry.sol`, of the dapp signing
workflow in `dapp/components/steps/Step2SignDocument.tsx` (IPFS upload
with retry, followed by the on-chain store), and of the verification flow
in `dapp/components/NetworkSelector.tsx` (`DocumentVerifier.handleVerify`).

Machine integers: `bytes32` hashes and `address` values are modelled as
`Nat` (the null address is `0`); `uint256` timestamps as `Nat`; `bytes`
as `List Nat` (only lengths are ever inspected by the contract); `string`
as `String`. A Solidity `mapping(bytes32 => Document)` is modelled as an
association list together with a total lookup that returns the
zero-initialized struct for absent keys, exactly matching EVM storage
semantics. A revert is modelled as `Except.error` leaving the state
untouched.
-/

deriving instance DecidableEq for Except

/-- Error kinds of the registry, following the taxonomy of the spec.
`alreadyExists` is the revert of the `documentNotExists` modifier,
`invalidTimestamp` covers the two timestamp requires, `invalidEndorsement`
the signature-length require, `invalidEndorser` the zero-signer require,
`notFound` the `documentExists` modifier and `outOfRange` the index-bound
require of `getDocumentHashByIndex`. -/
inductive RegError where
  | alreadyExists
  | invalidTimestamp
  | invalidEndorsement
  | invalidEndorser
  | notFound
  | outOfRange
deriving DecidableEq, Repr

/-- The `Document` struct of `DocumentRegistry.sol` (lines 10 to 16). -/
structure Document where
  hash : Nat
  timestamp : Nat
  signer : Nat
  signature : List Nat
  ipfsCid : String
deriving DecidableEq, Repr

/-- The zero-initialized `Document`, which an EVM mapping returns for a
key that was never written. -/
def zeroDocument : Document := ⟨0, 0, 0, [], ""⟩

/-- Storage of the contract: the `documents` mapping (as an association
list) and the `documentHashes` enumeration array. -/
structure RegistryState where
  documents : List (Nat × Document)
  documentHashes : List Nat
deriving DecidableEq, Repr

/-- Total lookup into the association list modelling the mapping,
defaulting to the zero struct. -/
def lookupDoc : List (Nat × Document) → Nat → Document
  | [], _ => zeroDocument
  | (k, d) :: rest, h => if h = k then d else lookupDoc rest h

/-- Reading `documents[_hash]` in the contract. -/
def getDocument (st : RegistryState) (h : Nat) : Document :=
  lookupDoc st.documents h

/-- The freshly deployed contract: empty mapping, empty array. -/
def initialRegistry : RegistryState := ⟨[], []⟩

/-- `storeDocumentHash` (DocumentRegistry.sol lines 67 to 91).  The
`documentNotExists` modifier runs before the body, so the existence check
precedes every `require` of the body; then the requires execute in source
order.  Solidity passes `msg.sender` implicitly with every external call;
the function body never reads it, which the extra `msgSender` parameter
makes explicit. -/
def storeDocumentHash (st : RegistryState) (blockTimestamp msgSender : Nat)
    (h ts : Nat) (sig : List Nat) (signer : Nat) (cid : String) :
    Except RegError RegistryState :=
  if (getDocument st h).signer ≠ 0 then Except.error RegError.alreadyExists
  else if ts = 0 then Except.error RegError.invalidTimestamp
  else if blockTimestamp < ts then Except.error RegError.invalidTimestamp
  else if sig.length = 0 ∨ 2048 < sig.length then Except.error RegError.invalidEndorsement
  else if signer = 0 then Except.error RegError.invalidEndorser
  else Except.ok ⟨(h, ⟨h, ts, signer, sig, cid⟩) :: st.documents,
                  st.documentHashes ++ [h]⟩

/-- A `put` call with EVM revert semantics: on a revert the contract
state is unchanged and the error is surfaced. -/
def runPut (st : RegistryState) (blockTimestamp msgSender : Nat)
    (h ts : Nat) (sig : List Nat) (signer : Nat) (cid : String) :
    RegistryState × Option RegError :=
  match storeDocumentHash st blockTimestamp msgSender h ts sig signer cid with
  | Except.ok st' => (st', none)
  | Except.error e => (st, some e)

/-- `isDocumentStored` (lines 166 to 168): existence is derived from the
signer field being non-null. -/
def isDocumentStored (st : RegistryState) (h : Nat) : Bool :=
  decide ((getDocument st h).signer ≠ 0)

/-- `getDocumentInfo` (lines 124 to 131): guarded by the `documentExists`
modifier, then returns the stored struct. -/
def getDocumentInfo (st : RegistryState) (h : Nat) : Except RegError Document :=
  if (getDocument st h).signer = 0 then Except.error RegError.notFound
  else Except.ok (getDocument st h)

/-- `getDocumentCount` (lines 174 to 176). -/
def getDocumentCount (st : RegistryState) : Nat :=
  st.documentHashes.length

/-- `getDocumentHashByIndex` (lines 183 to 190). -/
def getDocumentHashByIndex (st : RegistryState) (i : Nat) : Except RegError Nat :=
  if hlt : i < st.documentHashes.length then
    Except.ok (st.documentHashes.get ⟨i, hlt⟩)
  else Except.error RegError.outOfRange

/-- `verifyDocument` (lines 100 to 117): document exists, recorded signer
equals the supplied one, stored and supplied signatures non-empty.  No
cryptographic recovery is performed on the signature bytes. -/
def verifyDocument (st : RegistryState) (h signer : Nat) (sig : List Nat) : Bool :=
  let doc := getDocument st h
  if doc.signer = 0 then false
  else decide (doc.signer = signer) && decide (0 < doc.signature.length)
        && decide (0 < sig.length)

/-- Argument tuple of one external `storeDocumentHash` call, together
with the block context in which it executes. -/
structure PutCall where
  blockTimestamp : Nat
  msgSender : Nat
  hash : Nat
  timestamp : Nat
  signature : List Nat
  signer : Nat
  ipfsCid : String
deriving DecidableEq, Repr

/-- Execute one `put`, keeping the old state on a revert. -/
def applyPut (st : RegistryState) (c : PutCall) : RegistryState :=
  match storeDocumentHash st c.blockTimestamp c.msgSender c.hash c.timestamp
      c.signature c.signer c.ipfsCid with
  | Except.ok st' => st'
  | Except.error _ => st

/-- Execute a sequence of `put` calls from a given state.  Since
`storeDocumentHash` is the only mutator of the contract, every reachable
state is `execPutsFrom initialRegistry ops` for some call list `ops`. -/
def execPutsFrom (st : RegistryState) : List PutCall → RegistryState
  | [] => st
  | c :: cs => execPutsFrom (applyPut st c) cs

/-- The fingerprints of the calls that succeed, in call order. -/
def successfulPutHashes (st : RegistryState) : List PutCall → List Nat
  | [] => []
  | c :: cs =>
    match storeDocumentHash st c.blockTimestamp c.msgSender c.hash c.timestamp
        c.signature c.signer c.ipfsCid with
    | Except.ok st' => c.hash :: successfulPutHashes st' cs
    | Except.error _ => successfulPutHashes st cs

/-- A successful store satisfies every commit-time invariant and appends
exactly one record and one index entry. -/
theorem storeDocumentHash_ok {st : RegistryState} {bt ms h ts : Nat}
    {sig : List Nat} {signer : Nat} {cid : String} {st' : RegistryState}
    (hok : storeDocumentHash st bt ms h ts sig signer cid = Except.ok st') :
    (getDocument st h).signer = 0 ∧ 0 < ts ∧ ts ≤ bt ∧
    0 < sig.length ∧ sig.length ≤ 2048 ∧ signer ≠ 0 ∧
    st' = ⟨(h, ⟨h, ts, signer, sig, cid⟩) :: st.documents,
           st.documentHashes ++ [h]⟩ := by
  unfold storeDocumentHash at hok
  split_ifs at hok with h1 h2 h3 h4 h5
  refine ⟨by omega, by omega, by omega, ?_, ?_, h5, ?_⟩
  · omega
  · omega
  · exact (Except.ok.injEq _ _).mp hok |>.symm

/-- Claim C2: once a fingerprint is present, a second put with the same
fingerprint reverts with AlreadyExists regardless of the timestamp,
endorsement, endorser and locator of the second call, and the registry
state is unchanged by the failed call.  The `documentNotExists` modifier
runs before every other check, so no other error can preempt it. -/
theorem put_duplicate_alreadyExists (st : RegistryState) (bt ms h ts : Nat)
    (sig : List Nat) (signer : Nat) (cid : String)
    (hstored : isDocumentStored st h = true) :
    runPut st bt ms h ts sig signer cid = (st, some RegError.alreadyExists) := by
  have hs : (getDocument st h).signer ≠ 0 := by
    simpa [isDocumentStored] using hstored
  unfold runPut storeDocumentHash
  simp [hs]

/-- Concrete registry state holding exactly one document, used by the
evaluation theorems below. -/
def regOne : RegistryState := ⟨[(5, ⟨5, 10, 1, [7], "QmX"⟩)], [5]⟩

/-- Witness for claim C2: a concrete second put with fingerprint 5 and
entirely different arguments reverts with AlreadyExists and leaves the
state untouched. -/
theorem put_duplicate_alreadyExists_witness :
    runPut regOne 999 2 5 77 [1, 2, 3] 9 "other" = (regOne, some RegError.alreadyExists) :=
  put_duplicate_alreadyExists regOne 999 2 5 77 [1, 2, 3] 9 "other" (by decide)

/-- Claim C7: `exists` returns true exactly when `get` succeeds and the
returned record carries a non-null endorser identity.  `isDocumentStored`
is a total Bool-valued function, so it never fails. -/
theorem exists_iff_get_nonNull (st : RegistryState) (f : Nat) :
    isDocumentStored st f = true ↔
      ∃ d, getDocumentInfo st f = Except.ok d ∧ d.signer ≠ 0 := by
  unfold isDocumentStored getDocumentInfo
  by_cases hs : (getDocument st f).signer = 0
  · simp [hs]
  · simp [hs]

/-- Unfolding `getDocument` after a successful store: the new record sits
at its fingerprint, every other key is unchanged. -/
theorem getDocument_after_ok {st : RegistryState} {bt ms h ts : Nat}
    {sig : List Nat} {signer : Nat} {cid : String} {st' : RegistryState}
    (hok : storeDocumentHash st bt ms h ts sig signer cid = Except.ok st')
    (h2 : Nat) :
    getDocument st' h2 = if h2 = h then ⟨h, ts, signer, sig, cid⟩
                         else getDocument st h2 := by
  obtain ⟨-, -, -, -, -, -, hdef⟩ := storeDocumentHash_ok hok
  subst hdef
  simp [getDocument, lookupDoc]

/-- Append-only persistence: a record whose endorser is non-null is never
changed by any later sequence of `put` calls, because a `put` on the same
fingerprint reverts and a `put` on any other fingerprint does not touch
this key. -/
theorem getDocument_execPutsFrom (ops : List PutCall) :
    ∀ st h, (getDocument st h).signer ≠ 0 →
      getDocument (execPutsFrom st ops) h = getDocument st h := by
  induction ops with
  | nil => intro st h _; rfl
  | cons c cs ih =>
    intro st h hs
    show getDocument (execPutsFrom (applyPut st c) cs) h = getDocument st h
    unfold applyPut
    cases hst : storeDocumentHash st c.blockTimestamp c.msgSender c.hash
        c.timestamp c.signature c.signer c.ipfsCid with
    | ok st' =>
      have hfresh := (storeDocumentHash_ok hst).1
      have hne : h ≠ c.hash := by
        intro he; rw [he] at hs; exact hs hfresh
      have hget : getDocument st' h = getDocument st h := by
        rw [getDocument_after_ok hst h, if_neg hne]
      rw [ih st' h (by rw [hget]; exact hs), hget]
    | error e => exact ih st h hs

/-- Every record stored in the registry has an endorsement whose length
lies in the interval from 1 to 2048: the length bound of commit time is
an invariant of all reachable states. -/
def signatureLenOK (st : RegistryState) : Prop :=
  ∀ h, (getDocument st h).signer ≠ 0 →
    0 < (getDocument st h).signature.length ∧
    (getDocument st h).signature.length ≤ 2048

/-- The length invariant holds in every reachable state. -/
theorem signatureLenOK_exec (ops : List PutCall) :
    ∀ st, signatureLenOK st → signatureLenOK (execPutsFrom st ops) := by
  induction ops with
  | nil => intro st hwf; exact hwf
  | cons c cs ih =>
    intro st hwf
    show signatureLenOK (execPutsFrom (applyPut st c) cs)
    refine ih (applyPut st c) ?_
    unfold applyPut
    cases hst : storeDocumentHash st c.blockTimestamp c.msgSender c.hash
        c.timestamp c.signature c.signer c.ipfsCid with
    | ok st' =>
      intro h hs
      obtain ⟨-, -, -, hl1, hl2, -, -⟩ := storeDocumentHash_ok hst
      rw [getDocument_after_ok hst h]
      rw [getDocument_after_ok hst h] at hs
      by_cases he : h = c.hash
      · simp only [if_pos he]
        exact ⟨hl1, hl2⟩
      · simp only [if_neg he] at hs ⊢
        exact hwf h hs
    | error e => exact hwf

/-- The length invariant in the initial state, vacuously. -/
theorem signatureLenOK_initial : signatureLenOK initialRegistry := by
  intro h hs
  simp [getDocument, initialRegistry, lookupDoc, zeroDocument] at hs

/-- The enumeration array after a run of `put` calls is the old array
followed by the fingerprints of the successful calls, in call order. -/
theorem execPutsFrom_documentHashes (ops : List PutCall) :
    ∀ st, (execPutsFrom st ops).documentHashes
      = st.documentHashes ++ successfulPutHashes st ops := by
  induction ops with
  | nil => intro st; simp [execPutsFrom, successfulPutHashes]
  | cons c cs ih =>
    intro st
    show (execPutsFrom (applyPut st c) cs).documentHashes = _
    unfold applyPut successfulPutHashes
    cases hst : storeDocumentHash st c.blockTimestamp c.msgSender c.hash
        c.timestamp c.signature c.signer c.ipfsCid with
    | ok st' =>
      obtain ⟨-, -, -, -, -, -, hdef⟩ := storeDocumentHash_ok hst
      rw [ih st', hdef]
      simp
    | error e => exact ih st

/-- Claim C4: in every reachable registry state, `count` equals the
number of successful put calls, `byIndex i` for `i` below the count
returns the fingerprints in exactly the order the successful puts
occurred, and `byIndex i` for `i` at or above the count reverts with
OutOfRange. -/
theorem enumeration_order (ops : List PutCall) (i : Nat) :
    getDocumentCount (execPutsFrom initialRegistry ops)
      = (successfulPutHashes initialRegistry ops).length ∧
    (∀ hlt : i < (successfulPutHashes initialRegistry ops).length,
      getDocumentHashByIndex (execPutsFrom initialRegistry ops) i
        = Except.ok ((successfulPutHashes initialRegistry ops).get ⟨i, hlt⟩)) ∧
    ((successfulPutHashes initialRegistry ops).length ≤ i →
      getDocumentHashByIndex (execPutsFrom initialRegistry ops) i
        = Except.error RegError.outOfRange) := by
  have hh : (execPutsFrom initialRegistry ops).documentHashes
      = successfulPutHashes initialRegistry ops := by
    rw [execPutsFrom_documentHashes ops initialRegistry]
    rfl
  refine ⟨?_, ?_, ?_⟩
  · unfold getDocumentCount
    rw [hh]
  · intro hlt
    unfold getDocumentHashByIndex
    rw [dif_pos (by rw [hh]; exact hlt)]
    congr 1
    exact List.get_of_eq hh _
  · intro hge
    unfold getDocumentHashByIndex
    rw [dif_neg (by rw [hh]; omega)]

/-- Concrete call sequence for the enumeration witness: two successful
puts with fingerprints 5 and 9 around one failed duplicate put of 5. -/
def opsEnum : List PutCall :=
  [⟨100, 1, 5, 10, [7], 1, "QmA"⟩,
   ⟨100, 2, 5, 20, [8], 2, "QmB"⟩,
   ⟨100, 1, 9, 30, [9], 1, "QmC"⟩]

/-- Witness for claim C4 on `opsEnum`: the count is 2, index 0 holds
fingerprint 5, and index 2 is out of range. -/
theorem enumeration_order_witness :
    getDocumentCount (execPutsFrom initialRegistry opsEnum)
      = (successfulPutHashes initialRegistry opsEnum).length ∧
    getDocumentHashByIndex (execPutsFrom initialRegistry opsEnum) 0
      = Except.ok ((successfulPutHashes initialRegistry opsEnum).get ⟨0, by decide⟩) ∧
    getDocumentHashByIndex (execPutsFrom initialRegistry opsEnum) 2
      = Except.error RegError.outOfRange :=
  ⟨(enumeration_order opsEnum 0).1,
   (enumeration_order opsEnum 0).2.1 (by decide),
   (enumeration_order opsEnum 2).2.2 (by decide)⟩

/-- Counterexample to claim C5 as stated: the claim says every put whose
timestamp exceeds the registry current time fails with InvalidTimestamp,
but a put on an already-present fingerprint with a future timestamp fails
with AlreadyExists instead, because the `documentNotExists` modifier runs
before the timestamp require. -/
theorem timestamp_claim_counterexample :
    100 < 101 ∧
    storeDocumentHash regOne 100 2 5 101 [7] 1 "QmY"
      = Except.error RegError.alreadyExists ∧
    storeDocumentHash regOne 100 2 5 101 [7] 1 "QmY"
      ≠ Except.error RegError.invalidTimestamp := by
  refine ⟨by decide, by decide, by decide⟩

/-- Claim C5 as amended: for a fingerprint not already present, a put
with a timestamp strictly above the registry current time fails with
InvalidTimestamp (on a present fingerprint AlreadyExists preempts it); a
put with timestamp zero always fails; and a put can only succeed when the
timestamp is positive and at most the registry current time. -/
theorem timestamp_bound (st : RegistryState) (bt ms h ts : Nat)
    (sig : List Nat) (signer : Nat) (cid : String) :
    (isDocumentStored st h = false → bt < ts →
      storeDocumentHash st bt ms h ts sig signer cid
        = Except.error RegError.invalidTimestamp) ∧
    (ts = 0 → ∃ e, storeDocumentHash st bt ms h ts sig signer cid
        = Except.error e) ∧
    (∀ st', storeDocumentHash st bt ms h ts sig signer cid = Except.ok st' →
      0 < ts ∧ ts ≤ bt) := by
  refine ⟨?_, ?_, ?_⟩
  · intro hfresh hlt
    have hs : (getDocument st h).signer = 0 := by
      simpa [isDocumentStored] using hfresh
    have hts : ts ≠ 0 := by omega
    unfold storeDocumentHash
    simp [hs, hts, hlt]
  · intro hz
    unfold storeDocumentHash
    by_cases hs : (getDocument st h).signer ≠ 0
    · exact ⟨RegError.alreadyExists, by simp [hs]⟩
    · exact ⟨RegError.invalidTimestamp, by simp [hs, hz]⟩
  · intro st' hok
    obtain ⟨-, h1, h2, -, -, -, -⟩ := storeDocumentHash_ok hok
    exact ⟨h1, h2⟩

/-- Witness for the amended claim C5: a fresh fingerprint with a future
timestamp yields InvalidTimestamp, a zero timestamp fails, and a
successful put has a positive, non-future timestamp. -/
theorem timestamp_bound_witness :
    storeDocumentHash initialRegistry 100 1 5 101 [7] 1 "QmA"
      = Except.error RegError.invalidTimestamp ∧
    (∃ e, storeDocumentHash regOne 100 1 5 0 [7] 1 "QmA" = Except.error e) ∧
    (0 < 10 ∧ 10 ≤ 100) :=
  ⟨(timestamp_bound initialRegistry 100 1 5 101 [7] 1 "QmA").1 (by decide) (by decide),
   (timestamp_bound regOne 100 1 5 0 [7] 1 "QmA").2.1 rfl,
   (timestamp_bound initialRegistry 100 1 5 10 [7] 1 "QmA").2.2
     ⟨(5, ⟨5, 10, 1, [7], "QmA"⟩) :: initialRegistry.documents,
      initialRegistry.documentHashes ++ [5]⟩ (by decide)⟩

/-- Counterexample to claim C6 as stated: the claim says every put whose
endorsement length lies outside the interval from 1 to 2048 fails with
InvalidEndorsement, but a put with an empty endorsement and a zero
timestamp fails with InvalidTimestamp instead, because the timestamp
requires run before the signature-length require. -/
theorem endorsement_claim_counterexample :
    (([] : List Nat).length = 0) ∧
    storeDocumentHash initialRegistry 100 1 5 0 [] 1 "QmA"
      = Except.error RegError.invalidTimestamp ∧
    storeDocumentHash initialRegistry 100 1 5 0 [] 1 "QmA"
      ≠ Except.error RegError.invalidEndorsement := by
  refine ⟨by decide, by decide, by decide⟩

/-- Claim C6 as amended: a put whose fingerprint is fresh and whose
timestamp is valid fails with InvalidEndorsement whenever the endorsement
length lies outside the interval from 1 to 2048 (earlier checks preempt
this error otherwise); a put with an empty endorsement never succeeds;
and in every reachable state every committed record has a non-empty
endorsement of at most 2048 bytes. -/
theorem endorsement_length_bound (st : RegistryState) (bt ms h ts : Nat)
    (sig : List Nat) (signer : Nat) (cid : String) (ops : List PutCall) :
    (isDocumentStored st h = false → 0 < ts → ts ≤ bt →
      sig.length = 0 ∨ 2048 < sig.length →
      storeDocumentHash st bt ms h ts sig signer cid
        = Except.error RegError.invalidEndorsement) ∧
    (sig.length = 0 → ∀ st',
      storeDocumentHash st bt ms h ts sig signer cid ≠ Except.ok st') ∧
    (∀ h2, isDocumentStored (execPutsFrom initialRegistry ops) h2 = true →
      0 < (getDocument (execPutsFrom initialRegistry ops) h2).signature.length ∧
      (getDocument (execPutsFrom initialRegistry ops) h2).signature.length ≤ 2048) := by
  refine ⟨?_, ?_, ?_⟩
  · intro hfresh hts1 hts2 hbad
    have hs : (getDocument st h).signer = 0 := by
      simpa [isDocumentStored] using hfresh
    have hz : ts ≠ 0 := by omega
    have hf : ¬ bt < ts := by omega
    unfold storeDocumentHash
    rw [if_neg (not_not_intro hs), if_neg hz, if_neg hf, if_pos hbad]
  · intro hempty st' hok
    obtain ⟨-, -, -, hl, -, -, -⟩ := storeDocumentHash_ok hok
    omega
  · intro h2 hstored
    have hwf := signatureLenOK_exec ops initialRegistry signatureLenOK_initial
    exact hwf h2 (by simpa [isDocumentStored] using hstored)

/-- Witness for the amended claim C6: an oversized endorsement on an
otherwise valid fresh put yields InvalidEndorsement, an empty one never
commits, and the single record of a one-put run respects the bounds. -/
theorem endorsement_length_bound_witness :
    storeDocumentHash initialRegistry 100 1 5 10 (List.replicate 2049 7) 1 "QmA"
      = Except.error RegError.invalidEndorsement ∧
    (∀ st', storeDocumentHash initialRegistry 100 1 5 10 [] 1 "QmA"
      ≠ Except.ok st') ∧
    (0 < (getDocument (execPutsFrom initialRegistry [⟨100, 1, 5, 10, [7], 1, "QmA"⟩]) 5).signature.length ∧
      (getDocument (execPutsFrom initialRegistry [⟨100, 1, 5, 10, [7], 1, "QmA"⟩]) 5).signature.length ≤ 2048) :=
  ⟨(endorsement_length_bound initialRegistry 100 1 5 10 (List.replicate 2049 7) 1 "QmA" []).1
      (by decide) (by decide) (by decide)
      (Or.inr (by rw [List.length_replicate]; omega)),
   (endorsement_length_bound initialRegistry 100 1 5 10 [] 1 "QmA" []).2.1 rfl,
   (endorsement_length_bound initialRegistry 100 1 5 10 [7] 1 "QmA"
      [⟨100, 1, 5, 10, [7], 1, "QmA"⟩]).2.2 5 (by decide)⟩

/-- Claim C9: `verifyDocument` decides validity solely from existence of
the record, equality of the recorded signer with the supplied address and
non-emptiness of the stored and supplied signature byte strings; the
result does not depend on the content of the supplied signature, so for
every stored record any non-empty signature argument verifies whenever
the supplied address matches the recorded endorser. -/
theorem verifyDocument_address_only (st : RegistryState) (h a : Nat)
    (sig1 sig2 : List Nat) (ops : List PutCall) :
    (verifyDocument st h a sig1 = true ↔
      ((getDocument st h).signer ≠ 0 ∧ (getDocument st h).signer = a ∧
       0 < (getDocument st h).signature.length ∧ 0 < sig1.length)) ∧
    (0 < sig1.length → 0 < sig2.length →
      verifyDocument st h a sig1 = verifyDocument st h a sig2) ∧
    (∀ h2, isDocumentStored (execPutsFrom initialRegistry ops) h2 = true →
      0 < sig1.length →
      verifyDocument (execPutsFrom initialRegistry ops) h2
        (getDocument (execPutsFrom initialRegistry ops) h2).signer sig1 = true) := by
  refine ⟨?_, ?_, ?_⟩
  · unfold verifyDocument
    by_cases hs : (getDocument st h).signer = 0
    · simp [hs]
    · simp [hs, and_assoc]
  · intro hl1 hl2
    unfold verifyDocument
    simp [hl1, hl2]
  · intro h2 hstored hlen
    have hs : (getDocument (execPutsFrom initialRegistry ops) h2).signer ≠ 0 := by
      simpa [isDocumentStored] using hstored
    have hwf := signatureLenOK_exec ops initialRegistry signatureLenOK_initial h2 hs
    unfold verifyDocument
    simp [hs, hwf.1, hlen]

/-- Concrete one-put sequence used by the claim C9 witness. -/
def opsVerify : List PutCall := [⟨100, 1, 7, 10, [3], 4, "QmD"⟩]

/-- Witness for claim C9: on a stored record the verification outcome is
the same for two different non-empty signature arguments, and any
non-empty signature verifies against the recorded signer. -/
theorem verifyDocument_address_only_witness :
    verifyDocument regOne 5 1 [4] = verifyDocument regOne 5 1 [9, 9] ∧
    verifyDocument (execPutsFrom initialRegistry opsVerify) 7
      (getDocument (execPutsFrom initialRegistry opsVerify) 7).signer [4] = true :=
  ⟨(verifyDocument_address_only regOne 5 1 [4] [9, 9] []).2.1 (by decide) (by decide),
   (verifyDocument_address_only (execPutsFrom initialRegistry opsVerify) 7 0 [4] [4]
      opsVerify).2.2 7 (by decide) (by decide)⟩

/-- Claim C10: `storeDocumentHash` never authenticates the caller against
the claimed signer.  Whenever the four commit-time invariants hold, the
call succeeds for every caller, and the outcome is entirely independent
of the caller identity, so any party can commit a record naming any
non-null identity as endorser. -/
theorem put_ignores_caller (st : RegistryState) (bt msgSender h ts : Nat)
    (sig : List Nat) (signer : Nat) (cid : String)
    (hfresh : isDocumentStored st h = false) (hts1 : 0 < ts) (hts2 : ts ≤ bt)
    (hlen1 : 0 < sig.length) (hlen2 : sig.length ≤ 2048) (hsigner : signer ≠ 0) :
    storeDocumentHash st bt msgSender h ts sig signer cid
      = Except.ok ⟨(h, ⟨h, ts, signer, sig, cid⟩) :: st.documents,
                   st.documentHashes ++ [h]⟩ ∧
    (∀ ms2, storeDocumentHash st bt ms2 h ts sig signer cid
      = storeDocumentHash st bt msgSender h ts sig signer cid) := by
  have hs : (getDocument st h).signer = 0 := by
    simpa [isDocumentStored] using hfresh
  constructor
  · unfold storeDocumentHash
    rw [if_neg (not_not_intro hs), if_neg (by omega), if_neg (by omega),
        if_neg (by omega), if_neg hsigner]
  · intro ms2
    rfl

/-- Witness for claim C10: caller 42 commits a record naming address 1 as
endorser, even though 42 is not 1. -/
theorem put_ignores_caller_witness :
    storeDocumentHash initialRegistry 100 42 5 10 [7] 1 "QmA"
      = Except.ok ⟨[(5, ⟨5, 10, 1, [7], "QmA"⟩)], [5]⟩ ∧ (42 : Nat) ≠ 1 :=
  ⟨(put_ignores_caller initialRegistry 100 42 5 10 [7] 1 "QmA" (by decide) (by decide)
      (by decide) (by decide) (by decide) (by decide)).1,
   by decide⟩

/-- Per-field image of the `ipfs` block of `UPLOAD_CONFIG` in
`config/upload.ts`. -/
structure IpfsConfig where
  maxRetries : Nat
  retryDelay : Nat
  uploadTimeout : Nat
deriving DecidableEq, Repr

/-- The parts of `UPLOAD_CONFIG` (config/upload.ts) that the signing
workflow reads. -/
structure UploadConfig where
  maxFileSize : Nat
  ipfs : IpfsConfig
deriving DecidableEq, Repr

/-- `UPLOAD_CONFIG` from `config/upload.ts`: 10 MB limit, 3 retries,
2000 ms delay, 30000 ms timeout. -/
def UPLOAD_CONFIG : UploadConfig :=
  ⟨10 * 1024 * 1024, ⟨3, 2000, 30000⟩⟩

/-- Observable events of the upload loop: `attemptStarted k` is the
`setIpfsProgress` call at the start of the attempt with `retryAttempt`
equal to `k`, and `waited d` is the delay promise between attempts. -/
inductive UploadEvent where
  | attemptStarted (retryAttempt : Nat)
  | waited (delayMs : Nat)
deriving DecidableEq, Repr

/-- `uploadToIPFSWithRetry` (Step2SignDocument.tsx lines 180 to 223).
The external `uploadToIPFS` service is a parameter mapping the attempt
number to an optional CID (`none` is a thrown upload error).  On an
error with `retryAttempt < maxRetries` the loop waits `retryDelay` and
recurses with `retryAttempt + 1`; otherwise it rethrows.  The returned
list is the trace of observable events, oldest first. -/
def uploadToIPFSWithRetry (publish : Nat → Option String)
    (maxRetries retryDelay retryAttempt : Nat) :
    List UploadEvent × Except String String :=
  match publish retryAttempt with
  | some cid => ([UploadEvent.attemptStarted retryAttempt], Except.ok cid)
  | none =>
    if hlt : retryAttempt < maxRetries then
      let rest := uploadToIPFSWithRetry publish maxRetries retryDelay (retryAttempt + 1)
      (UploadEvent.attemptStarted retryAttempt :: UploadEvent.waited retryDelay :: rest.1,
       rest.2)
    else
      ([UploadEvent.attemptStarted retryAttempt], Except.error "ipfs upload failed")
termination_by maxRetries + 1 - retryAttempt
decreasing_by omega

/-- Number of publish attempts recorded in an event trace. -/
def countAttempts (evs : List UploadEvent) : Nat :=
  evs.countP fun e =>
    match e with
    | UploadEvent.attemptStarted _ => true
    | _ => false

/-- With a publisher that fails on every attempt, the upload loop always
ends in an error. -/
theorem upload_allFail (publish : Nat → Option String)
    (hfail : ∀ k, publish k = none) (m d : Nat) :
    ∀ n a, m ≤ a + n →
      (uploadToIPFSWithRetry publish m d a).2 = Except.error "ipfs upload failed" := by
  intro n
  induction n with
  | zero =>
    intro a ha
    unfold uploadToIPFSWithRetry
    simp only [hfail]
    rw [dif_neg (by omega)]
  | succ n ih =>
    intro a ha
    unfold uploadToIPFSWithRetry
    simp only [hfail]
    by_cases hlt : a < m
    · rw [dif_pos hlt]
      simpa using ih (a + 1) (by omega)
    · rw [dif_neg hlt]

/-- Claim C8: with the configured retry policy (`maxRetries = 3`) and a
publisher that fails transiently on every attempt, exactly 4 publish
attempts happen in order 0, 1, 2, 3, each retry preceded by a wait of
`retryDelay`, with the attempt number surfaced to observers at the start
of each attempt, and the loop ends in an error. -/
theorem retry_exhaustion_four_attempts (publish : Nat → Option String)
    (hfail : ∀ k, publish k = none) :
    (uploadToIPFSWithRetry publish UPLOAD_CONFIG.ipfs.maxRetries
        UPLOAD_CONFIG.ipfs.retryDelay 0).1
      = [UploadEvent.attemptStarted 0, UploadEvent.waited UPLOAD_CONFIG.ipfs.retryDelay,
         UploadEvent.attemptStarted 1, UploadEvent.waited UPLOAD_CONFIG.ipfs.retryDelay,
         UploadEvent.attemptStarted 2, UploadEvent.waited UPLOAD_CONFIG.ipfs.retryDelay,
         UploadEvent.attemptStarted 3] ∧
    countAttempts (uploadToIPFSWithRetry publish UPLOAD_CONFIG.ipfs.maxRetries
        UPLOAD_CONFIG.ipfs.retryDelay 0).1 = 4 ∧
    (uploadToIPFSWithRetry publish UPLOAD_CONFIG.ipfs.maxRetries
        UPLOAD_CONFIG.ipfs.retryDelay 0).2 = Except.error "ipfs upload failed" := by
  have htrace : (uploadToIPFSWithRetry publish UPLOAD_CONFIG.ipfs.maxRetries
      UPLOAD_CONFIG.ipfs.retryDelay 0).1
      = [UploadEvent.attemptStarted 0, UploadEvent.waited UPLOAD_CONFIG.ipfs.retryDelay,
         UploadEvent.attemptStarted 1, UploadEvent.waited UPLOAD_CONFIG.ipfs.retryDelay,
         UploadEvent.attemptStarted 2, UploadEvent.waited UPLOAD_CONFIG.ipfs.retryDelay,
         UploadEvent.attemptStarted 3] := by
    rw [uploadToIPFSWithRetry, hfail]
    rw [uploadToIPFSWithRetry, hfail]
    rw [uploadToIPFSWithRetry, hfail]
    rw [uploadToIPFSWithRetry, hfail]
    norm_num [UPLOAD_CONFIG]
  refine ⟨htrace, by rw [htrace]; rfl,
    upload_allFail publish hfail UPLOAD_CONFIG.ipfs.maxRetries
      UPLOAD_CONFIG.ipfs.retryDelay UPLOAD_CONFIG.ipfs.maxRetries 0 (by omega)⟩

/-- Witness for claim C8: the always-failing publisher drives the loop
through exactly 4 attempts. -/
theorem retry_exhaustion_four_attempts_witness :
    countAttempts (uploadToIPFSWithRetry (fun _ => none) UPLOAD_CONFIG.ipfs.maxRetries
        UPLOAD_CONFIG.ipfs.retryDelay 0).1 = 4 ∧
    (uploadToIPFSWithRetry (fun _ => none) UPLOAD_CONFIG.ipfs.maxRetries
        UPLOAD_CONFIG.ipfs.retryDelay 0).2 = Except.error "ipfs upload failed" :=
  ⟨(retry_exhaustion_four_attempts (fun _ => none) (fun _ => rfl)).2.1,
   (retry_exhaustion_four_attempts (fun _ => none) (fun _ => rfl)).2.2⟩

/-- The `SignatureData` produced by `signDocument` in
Step2SignDocument.tsx (the `formattedDate` display field is dropped). -/
structure SignatureData where
  signature : List Nat
  timestamp : Nat
  signerAddress : Nat
deriving DecidableEq, Repr

/-- Terminal outcome of one run of the signing workflow. -/
inductive RunResult where
  | committed (ipfsCid : String)
  | failed (stage : String)
deriving DecidableEq, Repr

/-- `handleSignAndStore` (Step2SignDocument.tsx lines 308 to 343): sign,
then upload with retry, then store on chain.  Each step throws on error
and the surrounding try/catch aborts the whole run, so a failed upload
prevents the store call from ever happening.  The signing step is a
parameter (`none` is a thrown signing error); the result pairs the
terminal outcome with the registry state after the run. -/
def handleSignAndStore (st : RegistryState) (blockTimestamp msgSender documentHash : Nat)
    (sign : Option SignatureData) (publish : Nat → Option String) :
    RunResult × RegistryState :=
  match sign with
  | none => (RunResult.failed "sign", st)
  | some sd =>
    match (uploadToIPFSWithRetry publish UPLOAD_CONFIG.ipfs.maxRetries
        UPLOAD_CONFIG.ipfs.retryDelay 0).2 with
    | Except.error _ => (RunResult.failed "ipfs", st)
    | Except.ok cid =>
      match storeDocumentHash st blockTimestamp msgSender documentHash
          sd.timestamp sd.signature sd.signerAddress cid with
      | Except.ok st' => (RunResult.committed cid, st')
      | Except.error _ => (RunResult.failed "commit", st)

/-- Counterexample to claim C1 as stated: a run whose publish stage fails
on every attempt terminates in a failed state with the registry
untouched; it does not proceed to Commit and does not terminate in
Committed with an empty storage locator. -/
theorem publish_nonfatal_counterexample :
    handleSignAndStore initialRegistry 100 1 5 (some ⟨[7], 50, 1⟩) (fun _ => none)
      = (RunResult.failed "ipfs", initialRegistry) ∧
    ((RunResult.failed "ipfs", initialRegistry) : RunResult × RegistryState)
      ≠ (RunResult.committed "", initialRegistry) := by
  have h2 := upload_allFail (fun _ => none) (fun _ => rfl) UPLOAD_CONFIG.ipfs.maxRetries
    UPLOAD_CONFIG.ipfs.retryDelay UPLOAD_CONFIG.ipfs.maxRetries 0 (by omega)
  constructor
  · simp only [handleSignAndStore]
    rw [h2]
  · decide

/-- Claim C1 as amended: for every run whose Publish stage fails on every
attempt, the run does not proceed to the Commit stage; it terminates in
the failed state of the upload step with the registry unchanged, and in
particular never terminates in Committed.  Publish exhaustion is fatal to
the run in this workflow. -/
theorem publish_exhaustion_fatal (st : RegistryState) (bt ms dh : Nat)
    (sd : SignatureData) (publish : Nat → Option String)
    (hfail : ∀ k, publish k = none) :
    handleSignAndStore st bt ms dh (some sd) publish = (RunResult.failed "ipfs", st) ∧
    (∀ cid st2, handleSignAndStore st bt ms dh (some sd) publish
      ≠ (RunResult.committed cid, st2)) := by
  have h2 := upload_allFail publish hfail UPLOAD_CONFIG.ipfs.maxRetries
    UPLOAD_CONFIG.ipfs.retryDelay UPLOAD_CONFIG.ipfs.maxRetries 0 (by omega)
  have hmain : handleSignAndStore st bt ms dh (some sd) publish
      = (RunResult.failed "ipfs", st) := by
    simp only [handleSignAndStore]
    rw [h2]
  refine ⟨hmain, fun cid st2 hc => ?_⟩
  rw [hmain] at hc
  simp at hc

/-- Witness for the amended claim C1: a concrete run with an
always-failing publisher ends failed with the registry untouched. -/
theorem publish_exhaustion_fatal_witness :
    handleSignAndStore regOne 100 1 6 (some ⟨[8], 60, 2⟩) (fun _ => none)
      = (RunResult.failed "ipfs", regOne) :=
  (publish_exhaustion_fatal regOne 100 1 6 ⟨[8], 60, 2⟩ (fun _ => none)
    (fun _ => rfl)).1

/-- Outcomes of the document verification flow, in the vocabulary of the
spec: `matched` is the successful comparison, `mismatch` carries the
recorded signer that the result panel displays, `notFound` covers both
missing-document paths and `resolveFailed` the ENS-resolution error,
which the code reports separately from the other outcomes. -/
inductive VerifyResult where
  | matched
  | mismatch (actualSigner : Nat)
  | notFound
  | resolveFailed
deriving DecidableEq, Repr

/-- `DocumentVerifier.handleVerify` (NetworkSelector.tsx lines 197 to
294): resolve the supplied name to an address (`none` is a resolution
failure), recompute the fingerprint from the file bytes with `hashFn`
(`HashUtils.calculateFileHash`, which hashes the bytes and takes no
caller-supplied fingerprint), look the fingerprint up in the registry and
compare the recorded signer with the resolved address. -/
def handleVerify (hashFn : List Nat → Nat) (st : RegistryState)
    (fileBytes : List Nat) (resolvedSigner : Option Nat) : VerifyResult :=
  match resolvedSigner with
  | none => VerifyResult.resolveFailed
  | some addr =>
    let fileHash := hashFn fileBytes
    if isDocumentStored st fileHash = false then VerifyResult.notFound
    else
      match getDocumentInfo st fileHash with
      | Except.error _ => VerifyResult.notFound
      | Except.ok doc =>
        if doc.signer = addr then VerifyResult.matched
        else VerifyResult.mismatch doc.signer

/-- Claim C3: after a successful commit of the fingerprint of `fileBytes`
with endorser `idI`, and after any further sequence of puts, verifying
those bytes against `idI` yields Matched, verifying them against any
other identity yields Mismatch carrying the recorded identity `idI`,
verifying bytes whose fingerprint is absent yields NotFound, and the
verifier depends on the file bytes only through the recomputed
fingerprint. -/
theorem verify_roundtrip (hashFn : List Nat → Nat) (fileBytes : List Nat)
    (idI : Nat) (st st' : RegistryState) (bt ms ts : Nat) (sig : List Nat)
    (cid : String) (ops : List PutCall)
    (hcommit : storeDocumentHash st bt ms (hashFn fileBytes) ts sig idI cid
      = Except.ok st') :
    handleVerify hashFn (execPutsFrom st' ops) fileBytes (some idI)
      = VerifyResult.matched ∧
    (∀ idJ, idJ ≠ idI → handleVerify hashFn (execPutsFrom st' ops) fileBytes (some idJ)
      = VerifyResult.mismatch idI) ∧
    (∀ otherBytes, isDocumentStored (execPutsFrom st' ops) (hashFn otherBytes) = false →
      handleVerify hashFn (execPutsFrom st' ops) otherBytes (some idI)
        = VerifyResult.notFound) ∧
    (∀ st2 b1 b2 r, hashFn b1 = hashFn b2 →
      handleVerify hashFn st2 b1 r = handleVerify hashFn st2 b2 r) := by
  obtain ⟨-, -, -, -, -, hne, -⟩ := storeDocumentHash_ok hcommit
  have hst' : getDocument st' (hashFn fileBytes)
      = ⟨hashFn fileBytes, ts, idI, sig, cid⟩ := by
    rw [getDocument_after_ok hcommit, if_pos rfl]
  have hdoc : getDocument (execPutsFrom st' ops) (hashFn fileBytes)
      = ⟨hashFn fileBytes, ts, idI, sig, cid⟩ := by
    rw [getDocument_execPutsFrom ops st' (hashFn fileBytes) (by rw [hst']; exact hne),
        hst']
  refine ⟨?_, ?_, ?_, ?_⟩
  · unfold handleVerify
    simp [isDocumentStored, getDocumentInfo, hdoc, hne]
  · intro idJ hJ
    unfold handleVerify
    simp [isDocumentStored, getDocumentInfo, hdoc, hne]
    intro he
    exact absurd he.symm hJ
  · intro otherBytes habsent
    unfold handleVerify
    simp [habsent]
  · intro st2 b1 b2 r heq
    cases r with
    | none => rfl
    | some addr => unfold handleVerify; rw [heq]

/-- Concrete fingerprint engine for the claim C3 witness: a computable
stand-in digest function. -/
def wHashFn (bytes : List Nat) : Nat := 100 + bytes.length

/-- Registry state right after committing the fingerprint of the witness
bytes `[1, 2, 3]` (digest 103) with endorser 1. -/
def wCommitted : RegistryState := ⟨[(103, ⟨103, 50, 1, [7], "QmZ"⟩)], [103]⟩

/-- One later put of an unrelated fingerprint, to exercise persistence. -/
def wLater : List PutCall := [⟨100, 3, 7, 10, [9], 2, "QmW"⟩]

/-- Witness for claim C3 at concrete inputs: Matched for the committing
identity, Mismatch reporting it for another identity, NotFound for bytes
with an uncommitted fingerprint, and bytes with equal digests verify
alike. -/
theorem verify_roundtrip_witness :
    handleVerify wHashFn (execPutsFrom wCommitted wLater) [1, 2, 3] (some 1)
      = VerifyResult.matched ∧
    handleVerify wHashFn (execPutsFrom wCommitted wLater) [1, 2, 3] (some 2)
      = VerifyResult.mismatch 1 ∧
    handleVerify wHashFn (execPutsFrom wCommitted wLater) [9, 9, 9, 9] (some 1)
      = VerifyResult.notFound ∧
    handleVerify wHashFn wCommitted [1, 2, 3] (some 1)
      = handleVerify wHashFn wCommitted [4, 5, 6] (some 1) :=
  ⟨(verify_roundtrip wHashFn [1, 2, 3] 1 initialRegistry wCommitted 100 2 50 [7] "QmZ"
      wLater (by decide)).1,
   (verify_roundtrip wHashFn [1, 2, 3] 1 initialRegistry wCommitted 100 2 50 [7] "QmZ"
      wLater (by decide)).2.1 2 (by decide),
   (verify_roundtrip wHashFn [1, 2, 3] 1 initialRegistry wCommitted 100 2 50 [7] "QmZ"
      wLater (by decide)).2.2.1 [9, 9, 9, 9] (by decide),
   (verify_roundtrip wHashFn [1, 2, 3] 1 initialRegistry wCommitted 100 2 50 [7] "QmZ"
      wLater (by decide)).2.2.2 wCommitted [1, 2, 3] [4, 5, 6] (some 1) rfl⟩
